import Mathlib

/-!
Verification of the HTTP data-serving core of `cardano-db-sync-api`
(`src/main.go`): the `/nft-owners` handler, the `/current-epoch` handler,
and the hexadecimal identifier validation they rely on.

Strings received as query parameters are modelled as lists of byte values
(Go strings are byte slices; `encoding/hex` and the emptiness check operate
bytewise).  Machine integers (`int64` counts, epoch numbers) are modelled
as `Int`; no arithmetic in the program can overflow a 64-bit register on
the inputs the database can produce, and no claim concerns wrap-around.
-/

/-- Errors of Go `encoding/hex`: `InvalidByteError(b)` for a byte outside
`0-9a-fA-F`, `ErrLength` for an odd-length input. -/
inductive HexError where
  | invalidByte (b : Nat) : HexError
  | errLength : HexError
deriving Repr, DecidableEq

/-- Go `encoding/hex.fromHexChar`: the value of one hex digit byte, or
failure.  Byte codes: 48-57 are the digits, 97-102 are the lowercase
letters a-f, 65-70 the uppercase A-F. -/
def fromHexChar (c : Nat) : Option Nat :=
  if 48 ≤ c ∧ c ≤ 57 then some (c - 48)
  else if 97 ≤ c ∧ c ≤ 102 then some (c - 97 + 10)
  else if 65 ≤ c ∧ c ≤ 70 then some (c - 65 + 10)
  else none

/-- Go `encoding/hex.DecodeString` on the bytes of the input: consumes two
bytes per output byte; the first invalid byte (leftmost) is reported, and
on an odd-length input whose bytes are all valid hex `ErrLength` is
reported (Go checks the dangling final byte before reporting bad length). -/
def hexDecode : List Nat → Except HexError (List Nat)
  | [] => Except.ok []
  | [c] =>
      match fromHexChar c with
      | none => Except.error (HexError.invalidByte c)
      | some _ => Except.error HexError.errLength
  | a :: b :: rest =>
      match fromHexChar a with
      | none => Except.error (HexError.invalidByte a)
      | some ha =>
        match fromHexChar b with
        | none => Except.error (HexError.invalidByte b)
        | some hb =>
          match hexDecode rest with
          | Except.error e => Except.error e
          | Except.ok ds => Except.ok ((ha * 16 + hb) :: ds)

example : hexDecode [100, 101, 97, 100] = Except.ok [222, 173] := rfl

example : hexDecode [122, 122] = Except.error (HexError.invalidByte 122) := rfl

example : hexDecode [97, 98, 99] = Except.error HexError.errLength := rfl

/-- A Go `context.Context` value, abstracted to what the claims need:
either the process-wide `context.Background()` or a per-request context
carrying the request's cancellation signal. -/
inductive GoContext where
  | background : GoContext
  | requestCtx (id : Nat) : GoContext
deriving Repr, DecidableEq

/-- The package-level variable `ctx = context.Background()`
(src/main.go line 66). -/
def packageCtx : GoContext := GoContext.background

/-- Outcome of a Redis `Get` round trip, had one been issued: a cached
payload, a miss, or a backend failure (connection refused, timeout). -/
inductive CacheLookup where
  | hit (payload : String) : CacheLookup
  | miss : CacheLookup
  | backendError : CacheLookup
deriving Repr, DecidableEq

/-- One element of the `/nft-owners` response: struct `NFTResponse`
(src/main.go lines 80-83), an address and its NFT count (`int64`). -/
structure NFTResponse where
  address : String
  count : Int
deriving Repr, DecidableEq

/-- Go `json.Marshal` of one `NFTResponse` value.  Addresses stored in the
ledger are plain ASCII (bech32/base58), so Go string escaping never fires
on them and quoting is plain. -/
def marshalNFT (r : NFTResponse) : String :=
  "\x7b\"address\":\"" ++ r.address ++ "\",\"count\":" ++ toString r.count ++ "\x7d"

/-- Comma-separated rendering of the array elements. -/
def marshalNFTElems : List NFTResponse → String
  | [] => ""
  | [r] => marshalNFT r
  | r :: rest => marshalNFT r ++ "," ++ marshalNFTElems rest

/-- Go `json.Marshal` of the handler's `results` slice.  The handler
declares `var results []NFTResponse` (a nil slice) and only `append`s to
it per scanned row, so the slice is nil exactly when no row was returned,
and `json.Marshal` renders a nil slice as `null`, not `[]`. -/
def marshalResults (rs : List NFTResponse) : String :=
  if rs = [] then "null" else "[" ++ marshalNFTElems rs ++ "]"

/-- What the database hands back for the ownership query: a query-level
error, an error while iterating or scanning rows, or the result rows in
the order the database returned them. -/
inductive DbReply where
  | queryError : DbReply
  | rowsError : DbReply
  | scanError : DbReply
  | rows (rs : List NFTResponse) : DbReply
deriving Repr, DecidableEq

/-- Observable outcome of one handler invocation: HTTP status, response
body (with the trailing newline `http.Error` appends), the context and
parameters of each database query issued, and how many cache reads and
writes were issued. -/
structure HandlerResult where
  status : Nat
  body : String
  dbCtx : Option GoContext
  dbParams : List (List Nat)
  cacheGets : Nat
  cacheSets : Nat
deriving Repr, DecidableEq

/-- `nftOwnersHandler` (src/main.go lines 145-220).  Validation: empty
`policy_id` is rejected as missing, then `hex.DecodeString` failure is
rejected as invalid hex; both before any I/O.  The Redis read-through
cache (lines 152-157) and write-back (line 216) are commented out in the
source, so the `cache` argument is never consulted and no cache call is
issued.  The database query runs under the package-level context, not the
request's context. -/
def nftOwnersHandler (reqCtx : GoContext) (policyID : List Nat)
    (dbReply : DbReply) (cache : CacheLookup) : HandlerResult :=
  if policyID = [] then
    { status := 400, body := "Missing policy_id parameter\n",
      dbCtx := none, dbParams := [], cacheGets := 0, cacheSets := 0 }
  else
    match hexDecode policyID with
    | Except.error _ =>
        { status := 400, body := "Invalid policy_id hex\n",
          dbCtx := none, dbParams := [], cacheGets := 0, cacheSets := 0 }
    | Except.ok decodedPolicy =>
        match dbReply with
        | DbReply.queryError =>
            { status := 500, body := "Database query error\n",
              dbCtx := some packageCtx, dbParams := [decodedPolicy],
              cacheGets := 0, cacheSets := 0 }
        | DbReply.rowsError =>
            { status := 500, body := "Error reading rows\n",
              dbCtx := some packageCtx, dbParams := [decodedPolicy],
              cacheGets := 0, cacheSets := 0 }
        | DbReply.scanError =>
            { status := 500, body := "Scan error\n",
              dbCtx := some packageCtx, dbParams := [decodedPolicy],
              cacheGets := 0, cacheSets := 0 }
        | DbReply.rows rs =>
            { status := 200, body := marshalResults rs,
              dbCtx := some packageCtx, dbParams := [decodedPolicy],
              cacheGets := 0, cacheSets := 0 }

/-- Two consecutive `/nft-owners` requests with the same `policy_id`: the
handler keeps no per-process state between invocations (the cache code is
commented out), so the pair of outcomes is just two independent runs
against the database replies each request received. -/
def twoRequests (reqCtx : GoContext) (policyID : List Nat)
    (reply₁ reply₂ : DbReply) (c₁ c₂ : CacheLookup) :
    HandlerResult × HandlerResult :=
  (nftOwnersHandler reqCtx policyID reply₁ c₁,
   nftOwnersHandler reqCtx policyID reply₂ c₂)

/-- What `row.Scan` sees for `SELECT MAX(no) FROM epoch`: a query failure,
or one row holding `MAX(no)` — which is SQL `NULL` (`none`) when the
`epoch` table is empty, and scanning `NULL` into an `int64` fails. -/
inductive EpochDbReply where
  | failure : EpochDbReply
  | row (v : Option Int) : EpochDbReply
deriving Repr, DecidableEq

/-- `getCurrentEpoch` (src/main.go lines 222-242): scan `MAX(no)` into an
`int64`; any scan failure (query error or `NULL` from an empty table)
yields a 500, otherwise 200 with the JSON object. -/
def getCurrentEpoch (reqCtx : GoContext) (reply : EpochDbReply) : HandlerResult :=
  match reply with
  | EpochDbReply.failure =>
      { status := 500, body := "Failed to get current epoch\n",
        dbCtx := some packageCtx, dbParams := [], cacheGets := 0, cacheSets := 0 }
  | EpochDbReply.row none =>
      { status := 500, body := "Failed to get current epoch\n",
        dbCtx := some packageCtx, dbParams := [], cacheGets := 0, cacheSets := 0 }
  | EpochDbReply.row (some epoch) =>
      { status := 200,
        body := "\x7b\"current_epoch\":" ++ toString epoch ++ "\x7d",
        dbCtx := some packageCtx, dbParams := [], cacheGets := 0, cacheSets := 0 }

/-- The database side of `SELECT MAX(no) FROM epoch`: the maximum of the
epoch-number column, `NULL` when the column is empty. -/
def maxEpochRow (epochs : List Int) : Option Int := epochs.max?

/-- The `/current-epoch` endpoint end to end: the handler applied to what
a healthy (`dbOk = true`) or failing database returns for the max query. -/
def currentEpochEndpoint (reqCtx : GoContext) (dbOk : Bool)
    (epochs : List Int) : HandlerResult :=
  getCurrentEpoch reqCtx
    (if dbOk then EpochDbReply.row (maxEpochRow epochs) else EpochDbReply.failure)

example :
    (nftOwnersHandler GoContext.background [100, 101, 97, 100, 98, 101, 101, 102]
      (DbReply.rows []) CacheLookup.miss).body = "null" := rfl

example :
    (nftOwnersHandler GoContext.background [100, 101]
      (DbReply.rows [⟨"addr1", 2⟩]) CacheLookup.miss).body =
      "[\x7b\"address\":\"addr1\",\"count\":2\x7d]" := rfl

/-- One row of the joined relation
`ma_tx_out ⋈ tx_out ⋈ address ⋈ multi_asset` that the ownership query
ranges over (src/main.go lines 166-180): the owner address string, the
token quantity at that output, the policy bytes of the asset, the id of
the consuming transaction when the output is spent (`NULL` = unspent), and
the address's script flag. -/
structure LedgerRow where
  address : String
  quantity : Int
  policy : List Nat
  consumedByTxId : Option Nat
  hasScript : Bool
deriving Repr, DecidableEq

/-- The query's `WHERE` clause: `ma.policy = $1 AND
txo.consumed_by_tx_id IS NULL AND mto.quantity = 1 AND
address.has_script = FALSE`. -/
def rowMatches (p : List Nat) (r : LedgerRow) : Bool :=
  r.policy == p && r.consumedByTxId == none && r.quantity == 1 && r.hasScript == false

/-- The query's `GROUP BY address.address` with `SUM(mto.quantity)`:
one record per distinct address among the rows passing the `WHERE`
clause, holding the sum of that address's quantities.  (The order in
which SQL emits the groups is not fixed; ordering enters through
`IsQueryResult` below.) -/
def nftGroups (table : List LedgerRow) (p : List Nat) : List NFTResponse :=
  let fil := table.filter (rowMatches p)
  ((fil.map (fun r => r.address)).dedup).map (fun a =>
    ⟨a, ((fil.filter (fun r => r.address == a)).map (fun r => r.quantity)).sum⟩)

/-- `ORDER BY total_quantity DESC`: every record's count is at least the
count of every record after it. -/
def SortedByCountDesc (out : List NFTResponse) : Prop :=
  out.Pairwise (fun x y => y.count ≤ x.count)

/-- A row list the database may return for the ownership query: some
arrangement of the groups that is sorted by count descending.  The query
gives no secondary sort key, so any such arrangement is a possible
result. -/
def IsQueryResult (table : List LedgerRow) (p : List Nat) (out : List NFTResponse) : Prop :=
  out.Perm (nftGroups table p) ∧ SortedByCountDesc out

/-- An unspent single-unit row under policy `p` at a key address. -/
def mkRow (a : String) (p : List Nat) : LedgerRow :=
  { address := a, quantity := 1, policy := p, consumedByTxId := none, hasScript := false }

/-- Concrete joined table realising the record set
`{(A,5), (B,9), (C,9)}` under policy `[1]`: nine unspent single-unit
outputs at B, nine at C, five at A. -/
def tableC5 : List LedgerRow :=
  List.replicate 9 (mkRow "B" [1]) ++ List.replicate 9 (mkRow "C" [1]) ++
    List.replicate 5 (mkRow "A" [1])

example : nftGroups tableC5 [1] = [⟨"B", 9⟩, ⟨"C", 9⟩, ⟨"A", 5⟩] := by decide

/-- A successful decode forces an even-length input of valid hex bytes
(contrapositive: odd length or any invalid byte makes `hexDecode` fail). -/
theorem hexDecode_ok_shape : ∀ (s d : List Nat), hexDecode s = Except.ok d →
    s.length % 2 = 0 ∧ ∀ b ∈ s, fromHexChar b ≠ none
  | [], _, _ => ⟨rfl, by simp⟩
  | [c], d, h => by
      simp only [hexDecode] at h
      rcases hc : fromHexChar c with _ | v <;> rw [hc] at h <;> cases h
  | a :: b :: rest, d, h => by
      simp only [hexDecode] at h
      rcases ha : fromHexChar a with _ | va
      · rw [ha] at h; cases h
      · rw [ha] at h
        rcases hb : fromHexChar b with _ | vb
        · rw [hb] at h; cases h
        · rw [hb] at h
          rcases hr : hexDecode rest with e | ds
          · rw [hr] at h; cases h
          · have ih := hexDecode_ok_shape rest ds hr
            refine ⟨?_, ?_⟩
            · simp only [List.length_cons]
              omega
            · intro x hx
              rcases List.mem_cons.mp hx with rfl | hx
              · simp [ha]
              · rcases List.mem_cons.mp hx with rfl | hx
                · simp [hb]
                · exact ih.2 x hx

/-- Bytes `c` and `d` are the same hex digit up to letter case: equal, or
the same letter with one written lowercase (`a-f`, codes 97-102) and the
other uppercase (`A-F`, codes 65-70, offset 32). -/
def hexCaseEqByte (c d : Nat) : Bool :=
  c == d || (97 ≤ c && c ≤ 102 && c == d + 32) || (97 ≤ d && d ≤ 102 && d == c + 32)

/-- Decoding one hex digit is case-insensitive. -/
theorem fromHexChar_caseEq (c d : Nat) (h : hexCaseEqByte c d = true) :
    fromHexChar c = fromHexChar d := by
  simp only [hexCaseEqByte, Bool.or_eq_true, Bool.and_eq_true, beq_iff_eq,
    decide_eq_true_eq] at h
  unfold fromHexChar
  split_ifs <;> first
    | rfl
    | (simp only [Option.some.injEq]; omega)
    | omega

/-- A byte that is not a hex digit is case-related only to itself
(the case-offset branches of `hexCaseEqByte` require a hex letter). -/
theorem hexCaseEq_of_invalid (c d : Nat) (h : hexCaseEqByte c d = true)
    (hc : fromHexChar c = none) : c = d := by
  simp only [hexCaseEqByte, Bool.or_eq_true, Bool.and_eq_true, beq_iff_eq,
    decide_eq_true_eq] at h
  unfold fromHexChar at hc
  split_ifs at hc <;> first | omega | cases hc

/-- `hexDecode` gives identical outcomes (value and error alike) on inputs
that differ only in the letter case of their hex digits. -/
theorem hexDecode_caseEq : ∀ (s t : List Nat),
    List.Forall₂ (fun c d => hexCaseEqByte c d = true) s t →
    hexDecode s = hexDecode t
  | [], [], _ => rfl
  | [c], [d], h => by
      have h1 : hexCaseEqByte c d = true := by cases h with | cons h1 _ => exact h1
      have ec : fromHexChar c = fromHexChar d := fromHexChar_caseEq c d h1
      simp only [hexDecode]
      rcases hc : fromHexChar c with _ | v
      · have : c = d := hexCaseEq_of_invalid c d h1 hc
        subst this
        rw [hc]
      · rw [← ec, hc]
  | a :: b :: rest, a2 :: b2 :: rest2, h => by
      rcases h with _ | ⟨h1, h2⟩
      rcases h2 with _ | ⟨hb, hrest⟩
      have ea : fromHexChar a = fromHexChar a2 := fromHexChar_caseEq a a2 h1
      have eb : fromHexChar b = fromHexChar b2 := fromHexChar_caseEq b b2 hb
      have erest : hexDecode rest = hexDecode rest2 := hexDecode_caseEq rest rest2 hrest
      simp only [hexDecode]
      rcases ha : fromHexChar a with _ | va
      · have : a = a2 := hexCaseEq_of_invalid a a2 h1 ha
        subst this
        rw [ha]
      · rw [← ea, ha]
        rcases hfb : fromHexChar b with _ | vb
        · have : b = b2 := hexCaseEq_of_invalid b b2 hb hfb
          subst this
          rw [hfb]
        · rw [← eb, hfb, erest]

/-- C2: every malformed `policy_id` (empty, odd-length hex, or containing a
non-hex byte) is answered with status 400 — the missing-parameter message
for the empty case, the invalid-hex message otherwise — and the handler
issues no database query and no cache call. -/
theorem nftOwners_rejects_malformed (reqCtx : GoContext) (policyID : List Nat)
    (dbReply : DbReply) (cache : CacheLookup)
    (h : policyID = [] ∨ policyID.length % 2 = 1 ∨ ∃ b ∈ policyID, fromHexChar b = none) :
    (nftOwnersHandler reqCtx policyID dbReply cache).status = 400 ∧
    (nftOwnersHandler reqCtx policyID dbReply cache).dbCtx = none ∧
    (nftOwnersHandler reqCtx policyID dbReply cache).dbParams = [] ∧
    (nftOwnersHandler reqCtx policyID dbReply cache).cacheGets = 0 ∧
    (nftOwnersHandler reqCtx policyID dbReply cache).cacheSets = 0 ∧
    (nftOwnersHandler reqCtx policyID dbReply cache).body =
      (if policyID = [] then "Missing policy_id parameter\n"
       else "Invalid policy_id hex\n") := by
  by_cases hemp : policyID = []
  · subst hemp
    exact ⟨rfl, rfl, rfl, rfl, rfl, rfl⟩
  · have herr : ∀ d, hexDecode policyID ≠ Except.ok d := by
      intro d hok
      have hs := hexDecode_ok_shape policyID d hok
      rcases h with h | h | ⟨b, hb, hfb⟩
      · exact hemp h
      · have := hs.1
        omega
      · exact hs.2 b hb hfb
    rcases hd : hexDecode policyID with e | d
    · unfold nftOwnersHandler
      rw [if_neg hemp, hd]
      exact ⟨rfl, rfl, rfl, rfl, rfl, by rw [if_neg hemp]⟩
    · exact absurd hd (herr d)

/-- Witness for C2 at the concrete input `policy_id = "zz"` (bytes
`[122, 122]`, not hex). -/
theorem nftOwners_rejects_malformed_witness :
    (nftOwnersHandler GoContext.background [122, 122] DbReply.queryError
        CacheLookup.miss).status = 400 ∧
    (nftOwnersHandler GoContext.background [122, 122] DbReply.queryError
        CacheLookup.miss).dbCtx = none ∧
    (nftOwnersHandler GoContext.background [122, 122] DbReply.queryError
        CacheLookup.miss).dbParams = [] ∧
    (nftOwnersHandler GoContext.background [122, 122] DbReply.queryError
        CacheLookup.miss).cacheGets = 0 ∧
    (nftOwnersHandler GoContext.background [122, 122] DbReply.queryError
        CacheLookup.miss).cacheSets = 0 ∧
    (nftOwnersHandler GoContext.background [122, 122] DbReply.queryError
        CacheLookup.miss).body =
      (if ([122, 122] : List Nat) = [] then "Missing policy_id parameter\n"
       else "Invalid policy_id hex\n") :=
  nftOwners_rejects_malformed GoContext.background [122, 122] DbReply.queryError
    CacheLookup.miss (Or.inr (Or.inr ⟨122, by decide, rfl⟩))

/-- C3 counterexample: with the valid `policy_id = "ab"` (bytes
`[97, 98]`, decoding to `[171]`) and an unchanged database, the second of
two consecutive requests still issues a database query with the decoded
policy — it is not served from a cache, because the caching code in the
source is commented out. -/
theorem nftOwners_second_request_hits_db :
    ((twoRequests GoContext.background [97, 98] (DbReply.rows []) (DbReply.rows [])
        CacheLookup.miss CacheLookup.miss).2).dbParams = [[171]] ∧
    ([[171]] : List (List Nat)) ≠ [] := by
  exact ⟨rfl, by decide⟩

/-- C3 amended: two consecutive requests with the same valid `policy_id`
and the same database reply return identical results (in particular
byte-identical bodies), but the second request issues a database query
with the decoded policy exactly as the first does: the Redis cache code is
commented out, so no request is served from a cache. -/
theorem nftOwners_idempotent_but_uncached (reqCtx : GoContext)
    (policyID d : List Nat) (reply : DbReply) (c₁ c₂ : CacheLookup)
    (hne : policyID ≠ []) (hdec : hexDecode policyID = Except.ok d) :
    (twoRequests reqCtx policyID reply reply c₁ c₂).1 =
      (twoRequests reqCtx policyID reply reply c₁ c₂).2 ∧
    ((twoRequests reqCtx policyID reply reply c₁ c₂).2).dbParams = [d] ∧
    ((twoRequests reqCtx policyID reply reply c₁ c₂).1).dbParams = [d] := by
  unfold twoRequests nftOwnersHandler
  rw [if_neg hne, hdec]
  cases reply <;> exact ⟨rfl, rfl, rfl⟩

/-- Witness for C3 amended at `policy_id = "ab"`. -/
theorem nftOwners_idempotent_but_uncached_witness :
    (twoRequests GoContext.background [97, 98] (DbReply.rows []) (DbReply.rows [])
        CacheLookup.miss CacheLookup.backendError).1 =
      (twoRequests GoContext.background [97, 98] (DbReply.rows []) (DbReply.rows [])
        CacheLookup.miss CacheLookup.backendError).2 ∧
    ((twoRequests GoContext.background [97, 98] (DbReply.rows []) (DbReply.rows [])
        CacheLookup.miss CacheLookup.backendError).2).dbParams = [[171]] ∧
    ((twoRequests GoContext.background [97, 98] (DbReply.rows []) (DbReply.rows [])
        CacheLookup.miss CacheLookup.backendError).1).dbParams = [[171]] :=
  nftOwners_idempotent_but_uncached GoContext.background [97, 98] [171]
    (DbReply.rows []) CacheLookup.miss CacheLookup.backendError (by decide) rfl

/-- C4 counterexample: under policy `deadbeef` (bytes
`[100, 101, 97, 100, 98, 101, 101, 102]`, decoding to
`[222, 173, 190, 239]`) the concrete table `tableC5` has no matching rows,
the database therefore returns no rows, and the handler answers 200 with
body `null` — not the empty array `[]` the claim requires: the `results`
slice is nil when no row is scanned and Go marshals a nil slice as
`null`. -/
theorem nftOwners_empty_result_is_null :
    nftGroups tableC5 [222, 173, 190, 239] = [] ∧
    (nftOwnersHandler GoContext.background [100, 101, 97, 100, 98, 101, 101, 102]
        (DbReply.rows []) CacheLookup.miss).status = 200 ∧
    (nftOwnersHandler GoContext.background [100, 101, 97, 100, 98, 101, 101, 102]
        (DbReply.rows []) CacheLookup.miss).body = "null" ∧
    "null" ≠ "[]" := by
  refine ⟨by decide, rfl, rfl, by decide⟩

/-- C4 amended: for every valid `policy_id` with no matching rows, the
handler returns status 200 with body `null` (a nil slice marshalled by
Go), not the empty array `[]`. -/
theorem nftOwners_empty_returns_null (reqCtx : GoContext) (policyID d : List Nat)
    (cache : CacheLookup) (hne : policyID ≠ [])
    (hdec : hexDecode policyID = Except.ok d) :
    (nftOwnersHandler reqCtx policyID (DbReply.rows []) cache).status = 200 ∧
    (nftOwnersHandler reqCtx policyID (DbReply.rows []) cache).body = "null" := by
  unfold nftOwnersHandler
  rw [if_neg hne, hdec]
  exact ⟨rfl, rfl⟩

/-- Witness for C4 amended at `policy_id = "deadbeef"`. -/
theorem nftOwners_empty_returns_null_witness :
    (nftOwnersHandler GoContext.background [100, 101, 97, 100, 98, 101, 101, 102]
        (DbReply.rows []) CacheLookup.miss).status = 200 ∧
    (nftOwnersHandler GoContext.background [100, 101, 97, 100, 98, 101, 101, 102]
        (DbReply.rows []) CacheLookup.miss).body = "null" :=
  nftOwners_empty_returns_null GoContext.background
    [100, 101, 97, 100, 98, 101, 101, 102] [222, 173, 190, 239]
    CacheLookup.miss (by decide) rfl

/-- C6: a cache backend failure is treated exactly like a cache miss —
the handler's outcome is the same, it queries the database with the
decoded policy and returns 200 with the marshalled rows — and more
generally the outcome is independent of the cache's behavior, so no cache
error (lookup or store) is ever visible to the client.  (In the source
this holds because the cache calls are commented out: the handler consults
no cache at all.) -/
theorem cache_errors_never_visible (reqCtx : GoContext) (policyID d : List Nat)
    (rs : List NFTResponse) (c : CacheLookup)
    (hne : policyID ≠ []) (hdec : hexDecode policyID = Except.ok d) :
    nftOwnersHandler reqCtx policyID (DbReply.rows rs) CacheLookup.backendError =
      nftOwnersHandler reqCtx policyID (DbReply.rows rs) CacheLookup.miss ∧
    (nftOwnersHandler reqCtx policyID (DbReply.rows rs) CacheLookup.backendError).status = 200 ∧
    (nftOwnersHandler reqCtx policyID (DbReply.rows rs) CacheLookup.backendError).body =
      marshalResults rs ∧
    (nftOwnersHandler reqCtx policyID (DbReply.rows rs) CacheLookup.backendError).dbParams = [d] ∧
    nftOwnersHandler reqCtx policyID (DbReply.rows rs) c =
      nftOwnersHandler reqCtx policyID (DbReply.rows rs) CacheLookup.miss := by
  unfold nftOwnersHandler
  rw [if_neg hne, hdec]
  exact ⟨rfl, rfl, rfl, rfl, rfl⟩

/-- Witness for C6 at `policy_id = "ab"` with one result row. -/
theorem cache_errors_never_visible_witness :
    nftOwnersHandler GoContext.background [97, 98]
        (DbReply.rows [⟨"addr1", 1⟩]) CacheLookup.backendError =
      nftOwnersHandler GoContext.background [97, 98]
        (DbReply.rows [⟨"addr1", 1⟩]) CacheLookup.miss ∧
    (nftOwnersHandler GoContext.background [97, 98]
        (DbReply.rows [⟨"addr1", 1⟩]) CacheLookup.backendError).status = 200 ∧
    (nftOwnersHandler GoContext.background [97, 98]
        (DbReply.rows [⟨"addr1", 1⟩]) CacheLookup.backendError).body =
      marshalResults [⟨"addr1", 1⟩] ∧
    (nftOwnersHandler GoContext.background [97, 98]
        (DbReply.rows [⟨"addr1", 1⟩]) CacheLookup.backendError).dbParams = [[171]] ∧
    nftOwnersHandler GoContext.background [97, 98]
        (DbReply.rows [⟨"addr1", 1⟩]) (CacheLookup.hit "stale") =
      nftOwnersHandler GoContext.background [97, 98]
        (DbReply.rows [⟨"addr1", 1⟩]) CacheLookup.miss :=
  cache_errors_never_visible GoContext.background [97, 98] [171] [⟨"addr1", 1⟩]
    (CacheLookup.hit "stale") (by decide) rfl

/-- C8 counterexample: a request carrying its own per-request context
(`requestCtx 0`) still has its database query issued under the
package-level `context.Background()`, for `/nft-owners` and
`/current-epoch` alike — the backend call is not tied to the request's
cancellation signal. -/
theorem db_query_ignores_request_context :
    (nftOwnersHandler (GoContext.requestCtx 0) [97, 98] (DbReply.rows [])
        CacheLookup.miss).dbCtx = some GoContext.background ∧
    some GoContext.background ≠ some (GoContext.requestCtx 0) ∧
    (getCurrentEpoch (GoContext.requestCtx 0) (EpochDbReply.row (some 5))).dbCtx =
      some GoContext.background ∧
    some GoContext.background ≠ some (GoContext.requestCtx 0) := by
  exact ⟨rfl, by decide, rfl, by decide⟩

/-- C8 amended: every database round trip of both handlers runs under the
package-level background context (src/main.go line 66), never under the
request's context, so an abandoned client connection does not abort
in-flight backend work. -/
theorem db_query_uses_package_context (reqCtx : GoContext) (policyID : List Nat)
    (dbReply : DbReply) (cache : CacheLookup) (er : EpochDbReply) :
    (∀ g, (nftOwnersHandler reqCtx policyID dbReply cache).dbCtx = some g →
      g = packageCtx) ∧
    (getCurrentEpoch reqCtx er).dbCtx = some packageCtx := by
  constructor
  · intro g hg
    unfold nftOwnersHandler at hg
    by_cases hemp : policyID = []
    · rw [if_pos hemp] at hg
      cases hg
    · rw [if_neg hemp] at hg
      rcases hd : hexDecode policyID with e | d <;> rw [hd] at hg
      · cases hg
      · cases dbReply <;> simp_all
  · cases er with
    | failure => rfl
    | row v => cases v <;> rfl

/-- C10: hex decoding of `policy_id` is case-insensitive: two inputs that
differ only in the letter case of their hex digits decode identically, so
the handler issues its database query with the identical decoded
parameter and the two requests produce identical responses. -/
theorem nftOwners_hex_case_insensitive (reqCtx : GoContext) (s t : List Nat)
    (dbReply : DbReply) (cache : CacheLookup)
    (h : List.Forall₂ (fun c d => hexCaseEqByte c d = true) s t) :
    hexDecode s = hexDecode t ∧
    nftOwnersHandler reqCtx s dbReply cache = nftOwnersHandler reqCtx t dbReply cache := by
  have hd := hexDecode_caseEq s t h
  refine ⟨hd, ?_⟩
  have hnil : s = [] ↔ t = [] := by
    cases h <;> simp
  unfold nftOwnersHandler
  by_cases hs : s = []
  · rw [if_pos hs, if_pos (hnil.mp hs)]
  · rw [if_neg hs, if_neg (fun ht => hs (hnil.mpr ht)), hd]

/-- Witness for C10 at `"AB"` (bytes `[65, 66]`) versus `"ab"`
(bytes `[97, 98]`). -/
theorem nftOwners_hex_case_insensitive_witness :
    hexDecode [65, 66] = hexDecode [97, 98] ∧
    nftOwnersHandler GoContext.background [65, 66] (DbReply.rows [⟨"addr1", 1⟩])
        CacheLookup.miss =
      nftOwnersHandler GoContext.background [97, 98] (DbReply.rows [⟨"addr1", 1⟩])
        CacheLookup.miss :=
  nftOwners_hex_case_insensitive GoContext.background [65, 66] [97, 98]
    (DbReply.rows [⟨"addr1", 1⟩]) CacheLookup.miss
    (List.Forall₂.cons (by decide) (List.Forall₂.cons (by decide) List.Forall₂.nil))

/-- The addresses of the grouped records are exactly the deduplicated
addresses of the rows passing the `WHERE` clause. -/
theorem nftGroups_addresses (table : List LedgerRow) (p : List Nat) :
    (nftGroups table p).map (fun r => r.address) =
      ((table.filter (rowMatches p)).map (fun r => r.address)).dedup := by
  unfold nftGroups
  rw [List.map_map]
  exact List.map_id _

/-- Every grouped record's address occurs among the filtered rows and its
count is the sum of the quantities of the filtered rows at that address. -/
theorem mem_nftGroups (table : List LedgerRow) (p : List Nat) (rec : NFTResponse)
    (h : rec ∈ nftGroups table p) :
    rec.address ∈ (table.filter (rowMatches p)).map (fun r => r.address) ∧
    rec.count = (((table.filter (rowMatches p)).filter
      (fun r => r.address == rec.address)).map (fun r => r.quantity)).sum := by
  unfold nftGroups at h
  rcases List.mem_map.mp h with ⟨a, ha, rfl⟩
  exact ⟨List.mem_dedup.mp ha, rfl⟩

/-- C1: every possible `/nft-owners` result contains only records backed
by a row of the joined table satisfying the full filter (given policy,
unspent, quantity exactly 1, non-script address); each record's count is
the per-address sum over the filtered rows; and addresses are pairwise
distinct, so there is at most one record per distinct owner address. -/
theorem nftOwners_filter_group_unique (table : List LedgerRow) (p : List Nat)
    (out : List NFTResponse) (h : IsQueryResult table p out) :
    (∀ rec ∈ out,
      (∃ r ∈ table, rowMatches p r = true ∧ r.address = rec.address) ∧
      rec.count = (((table.filter (rowMatches p)).filter
        (fun r => r.address == rec.address)).map (fun r => r.quantity)).sum) ∧
    (out.map (fun r => r.address)).Nodup := by
  obtain ⟨hperm, hsort⟩ := h
  constructor
  · intro rec hrec
    have hg : rec ∈ nftGroups table p := hperm.subset hrec
    obtain ⟨haddr, hcount⟩ := mem_nftGroups table p rec hg
    refine ⟨?_, hcount⟩
    rcases List.mem_map.mp haddr with ⟨r, hr, hra⟩
    rcases List.mem_filter.mp hr with ⟨hrt, hrm⟩
    exact ⟨r, hrt, hrm, hra⟩
  · have hnd : ((nftGroups table p).map (fun r => r.address)).Nodup := by
      rw [nftGroups_addresses]
      exact List.nodup_dedup _
    exact ((hperm.map (fun r => r.address)).nodup_iff).mpr hnd

/-- Witness for C1 on the concrete table `tableC5` under policy `[1]`. -/
theorem nftOwners_filter_group_unique_witness :
    (∀ rec ∈ ([⟨"B", 9⟩, ⟨"C", 9⟩, ⟨"A", 5⟩] : List NFTResponse),
      (∃ r ∈ tableC5, rowMatches [1] r = true ∧ r.address = rec.address) ∧
      rec.count = (((tableC5.filter (rowMatches [1])).filter
        (fun r => r.address == rec.address)).map (fun r => r.quantity)).sum) ∧
    (([⟨"B", 9⟩, ⟨"C", 9⟩, ⟨"A", 5⟩] : List NFTResponse).map
      (fun r => r.address)).Nodup :=
  nftOwners_filter_group_unique tableC5 [1] [⟨"B", 9⟩, ⟨"C", 9⟩, ⟨"A", 5⟩]
    (by unfold IsQueryResult SortedByCountDesc; exact ⟨by decide, by decide⟩)

/-- Helper for C9: a nonempty list all of whose entries equal 1 has sum at
least 1. -/
theorem one_le_sum_of_all_one (l : List Int) (hne : l ≠ []) (h1 : ∀ q ∈ l, q = 1) :
    1 ≤ l.sum := by
  cases l with
  | nil => cases hne rfl
  | cons x xs =>
    have hx : x = 1 := h1 x (List.mem_cons_self x xs)
    have hxs : 0 ≤ xs.sum := by
      refine List.sum_nonneg ?_
      intro q hq
      rw [h1 q (List.mem_cons_of_mem x hq)]
      norm_num
    rw [List.sum_cons, hx]
    omega

/-- C9: every record of every possible `/nft-owners` result has a count of
at least 1: the quantity-equals-1 filter makes each contributing row count
exactly 1 and every reported address has at least one contributing row, so
a zero or negative count is impossible. -/
theorem nftOwners_count_ge_one (table : List LedgerRow) (p : List Nat)
    (out : List NFTResponse) (h : IsQueryResult table p out) :
    ∀ rec ∈ out, 1 ≤ rec.count := by
  intro rec hrec
  have hg : rec ∈ nftGroups table p := h.1.subset hrec
  obtain ⟨haddr, hcount⟩ := mem_nftGroups table p rec hg
  rcases List.mem_map.mp haddr with ⟨r0, hr0, hr0a⟩
  have hr0g : r0 ∈ (table.filter (rowMatches p)).filter
      (fun r => r.address == rec.address) :=
    List.mem_filter.mpr ⟨hr0, by simp [hr0a]⟩
  have hne : (((table.filter (rowMatches p)).filter
      (fun r => r.address == rec.address)).map (fun r => r.quantity)) ≠ [] :=
    List.ne_nil_of_mem (List.mem_map_of_mem (fun r => r.quantity) hr0g)
  have hall : ∀ q ∈ ((table.filter (rowMatches p)).filter
      (fun r => r.address == rec.address)).map (fun r => r.quantity), q = 1 := by
    intro q hq
    rcases List.mem_map.mp hq with ⟨r, hr, rfl⟩
    have hrf : r ∈ table.filter (rowMatches p) := (List.mem_filter.mp hr).1
    have hrm : rowMatches p r = true := (List.mem_filter.mp hrf).2
    unfold rowMatches at hrm
    simp only [Bool.and_eq_true, beq_iff_eq] at hrm
    exact hrm.1.2
  rw [hcount]
  exact one_le_sum_of_all_one _ hne hall

/-- Witness for C9 on the concrete table `tableC5` under policy `[1]`,
instantiated at the record for address `"B"`. -/
theorem nftOwners_count_ge_one_witness :
    1 ≤ (⟨"B", 9⟩ : NFTResponse).count :=
  nftOwners_count_ge_one tableC5 [1] [⟨"B", 9⟩, ⟨"C", 9⟩, ⟨"A", 5⟩]
    (by unfold IsQueryResult SortedByCountDesc; exact ⟨by decide, by decide⟩)
    ⟨"B", 9⟩ (by decide)

/-- C5 counterexample: for the record set `{(A,5), (B,9), (C,9)}` realised
by `tableC5`, both tie orders of B and C are possible query results — the
query orders by count descending with no secondary sort key, so the
relative order of records tied on count is not stable/deterministic. -/
theorem nftOwners_tie_order_not_fixed :
    IsQueryResult tableC5 [1] [⟨"B", 9⟩, ⟨"C", 9⟩, ⟨"A", 5⟩] ∧
    IsQueryResult tableC5 [1] [⟨"C", 9⟩, ⟨"B", 9⟩, ⟨"A", 5⟩] ∧
    ([⟨"B", 9⟩, ⟨"C", 9⟩, ⟨"A", 5⟩] : List NFTResponse) ≠
      [⟨"C", 9⟩, ⟨"B", 9⟩, ⟨"A", 5⟩] := by
  refine ⟨?_, ?_, by decide⟩ <;>
    (unfold IsQueryResult SortedByCountDesc; exact ⟨by decide, by decide⟩)

/-- C5 amended: results are sorted descending by held-unit count — for the
record set `{(A,5), (B,9), (C,9)}` the two 9-count records B and C always
precede the 5-count record A — but the relative order of B and C is not
fixed by the code: exactly the two tie orders are possible. -/
theorem nftOwners_desc_order_scenario (out : List NFTResponse)
    (h : IsQueryResult tableC5 [1] out) :
    out = [⟨"B", 9⟩, ⟨"C", 9⟩, ⟨"A", 5⟩] ∨
      out = [⟨"C", 9⟩, ⟨"B", 9⟩, ⟨"A", 5⟩] := by
  obtain ⟨hperm, hsort⟩ := h
  rw [show nftGroups tableC5 [1] = [⟨"B", 9⟩, ⟨"C", 9⟩, ⟨"A", 5⟩] from by decide]
    at hperm
  obtain ⟨x, y, z, rfl⟩ := List.length_eq_three.mp hperm.length_eq
  have hx : x ∈ [(⟨"B", 9⟩ : NFTResponse), ⟨"C", 9⟩, ⟨"A", 5⟩] :=
    hperm.subset (by simp)
  have hy : y ∈ [(⟨"B", 9⟩ : NFTResponse), ⟨"C", 9⟩, ⟨"A", 5⟩] :=
    hperm.subset (by simp)
  have hz : z ∈ [(⟨"B", 9⟩ : NFTResponse), ⟨"C", 9⟩, ⟨"A", 5⟩] :=
    hperm.subset (by simp)
  unfold SortedByCountDesc at hsort
  simp only [List.mem_cons, List.not_mem_nil, or_false] at hx hy hz
  rcases hx with rfl | rfl | rfl <;> rcases hy with rfl | rfl | rfl <;>
    rcases hz with rfl | rfl | rfl <;>
    first
      | exact Or.inl rfl
      | exact Or.inr rfl
      | exact absurd hperm (by decide)
      | exact absurd hsort (by decide)

/-- Witness for C5 amended at the first of the two admissible orders. -/
theorem nftOwners_desc_order_scenario_witness :
    ([⟨"B", 9⟩, ⟨"C", 9⟩, ⟨"A", 5⟩] : List NFTResponse) =
        [⟨"B", 9⟩, ⟨"C", 9⟩, ⟨"A", 5⟩] ∨
      ([⟨"B", 9⟩, ⟨"C", 9⟩, ⟨"A", 5⟩] : List NFTResponse) =
        [⟨"C", 9⟩, ⟨"B", 9⟩, ⟨"A", 5⟩] :=
  nftOwners_desc_order_scenario [⟨"B", 9⟩, ⟨"C", 9⟩, ⟨"A", 5⟩]
    (by unfold IsQueryResult SortedByCountDesc; exact ⟨by decide, by decide⟩)

/-- C7: `/current-epoch` returns 200 with `{"current_epoch": m}` where `m`
is the maximum of the epoch-number column; an empty column (SQL `MAX`
returns `NULL`, which fails the `int64` scan) and a backend failure both
yield status 500. -/
theorem currentEpoch_max_or_500 (reqCtx : GoContext) (epochs : List Int) (m : Int)
    (hmax : epochs.max? = some m) :
    (currentEpochEndpoint reqCtx true epochs).status = 200 ∧
    (currentEpochEndpoint reqCtx true epochs).body =
      "\x7b\"current_epoch\":" ++ toString m ++ "\x7d" ∧
    m ∈ epochs ∧ (∀ v ∈ epochs, v ≤ m) ∧
    (currentEpochEndpoint reqCtx true []).status = 500 ∧
    (currentEpochEndpoint reqCtx false epochs).status = 500 := by
  haveI anti : Std.Antisymm (fun (a b : Int) => a ≤ b) :=
    ⟨fun h1 h2 => le_antisymm h1 h2⟩
  have hm := (List.max?_eq_some_iff (α := Int) (fun a => le_refl a)
    (fun a b => max_choice a b) (fun a b c => max_le_iff)).mp hmax
  refine ⟨?_, ?_, hm.1, hm.2, rfl, rfl⟩ <;>
    simp [currentEpochEndpoint, maxEpochRow, hmax, getCurrentEpoch]

/-- Witness for C7 at the concrete column `[3, 5]` with maximum 5. -/
theorem currentEpoch_max_or_500_witness :
    (currentEpochEndpoint GoContext.background true [3, 5]).status = 200 ∧
    (currentEpochEndpoint GoContext.background true [3, 5]).body =
      "\x7b\"current_epoch\":" ++ toString (5 : Int) ++ "\x7d" ∧
    (5 : Int) ∈ [(3 : Int), 5] ∧ (∀ v ∈ [(3 : Int), 5], v ≤ 5) ∧
    (currentEpochEndpoint GoContext.background true []).status = 500 ∧
    (currentEpochEndpoint GoContext.background false [3, 5]).status = 500 :=
  currentEpoch_max_or_500 GoContext.background [3, 5] 5 (by decide)

/-- Witness for C8 amended at a request-scoped context. -/
theorem db_query_uses_package_context_witness :
    (∀ g, (nftOwnersHandler (GoContext.requestCtx 7) [97, 98] (DbReply.rows [])
        CacheLookup.miss).dbCtx = some g → g = packageCtx) ∧
    (getCurrentEpoch (GoContext.requestCtx 7) (EpochDbReply.row (some 5))).dbCtx =
      some packageCtx :=
  db_query_uses_package_context (GoContext.requestCtx 7) [97, 98]
    (DbReply.rows []) CacheLookup.miss (EpochDbReply.row (some 5))
